import Mathlib

/-!
Shallow embedding of the feature-gathering pipeline of
src/Notebooks/utils/sentinel_satellites.py, together with the interface facts of
src/Notebooks/utils/radar_features.py that its RADAR branch depends on.

Modelling conventions:
* Calendar dates are natural numbers (the code works with day-granular
  timestamps whose only relevant structure is their total order).
* The external imagery platform (the module named ee, the Image Source of the
  spec) is a parameter of type ImageSource: it yields the raw acquisition-date
  list of a filtered collection and the per-date band means over a polygon.
* Fallible Python code is embedded as Except Err: every runtime exception the
  source can raise on the modelled paths has an Err constructor named after it.
* Thread pools run tasks that share no mutable state; the code gathers results
  with concurrent.futures.as_completed, whose completion order is
  nondeterministic.  The model gathers in submission order; every theorem below
  is either insensitive to gather order (sortedness, multiset of rows) or is
  about a single submitted task, so no generality is lost.
-/

/-- Decidable equality on Except values, needed to evaluate the embedded
pipeline on concrete inputs inside proofs. -/
instance exceptDecEq (ε α : Type) [DecidableEq ε] [DecidableEq α] :
    DecidableEq (Except ε α) := fun a b =>
  match a, b with
  | Except.ok x, Except.ok y =>
    if h : x = y then Decidable.isTrue (by rw [h])
    else Decidable.isFalse (fun hc => h (Except.ok.inj hc))
  | Except.error x, Except.error y =>
    if h : x = y then Decidable.isTrue (by rw [h])
    else Decidable.isFalse (fun hc => h (Except.error.inj hc))
  | Except.ok _, Except.error _ => Decidable.isFalse (fun hc => Except.noConfusion hc)
  | Except.error _, Except.ok _ => Decidable.isFalse (fun hc => Except.noConfusion hc)

namespace SentinelSat

/-- A field polygon: the ordered coordinate ring from the fields table.  It is
only ever handed to the external Image Source, so its contents are opaque. -/
abbrev Polygon := List (Int × Int)

/-- One row of the fields DataFrame: field name (column 0) and polygon
(column 1), as read by process_field via field[0] and field[1]. -/
structure FieldRow where
  name : String
  polygon : Polygon
deriving DecidableEq

/-- The fields DataFrame passed to get_features: two string-labelled columns
(the identifier column, whose label process_field reads as field.index[0], and
the polygon column) and one row per field. -/
structure FieldsDf where
  idCol : String
  polyCol : String
  rows : List FieldRow
deriving DecidableEq

/-- Runtime errors of the modelled Python paths, one constructor per concrete
exception the source can raise. -/
inductive Err where
  /-- ZeroDivisionError from chunk_size = len(date_range) // num_chunks when
  num_chunks is 0 (line 152). -/
  | zeroDivision : Err
  /-- ValueError [range arg 3 must not be zero] from range(0, n, 0) when
  chunk_size is 0 (line 153). -/
  | rangeZeroStep : Err
  /-- ValueError [max_workers must be greater than 0] from building a
  ThreadPoolExecutor with a nonpositive size (lines 158 and 244). -/
  | invalidPoolSize : Err
  /-- IndexError from df.columns[0] when the DataFrame built from an empty row
  list has no columns (line 261). -/
  | indexError : Err
  /-- KeyError from looking a column up by a label absent from the DataFrame
  columns (line 186 when a whole DataFrame is passed as field). -/
  | keyError : Int → Err
  /-- AttributeError from referencing a name a module does not define
  (line 26). -/
  | attributeError : String → Err
  /-- UnboundLocalError from reading a local variable no branch assigned
  (lines 204 and 124). -/
  | unboundLocal : String → Err
deriving DecidableEq

/-- The external Image Source (the ee platform; spec section 6).  rawDates
gives the acquisition-date list of the filtered collection a field-task builds
(sentinel number, polygon, start, end); bandMeans gives the per-date band/
polarization means over the polygon for the chosen satellite. -/
structure ImageSource where
  rawDates : Nat → Polygon → Nat → Nat → List Nat
  bandMeans : Nat → Polygon → Nat → List (String × Int)

/-- A filtered image collection as process_chunk consumes it: for each date it
yields the band means the per-date feature calls reduce to.  Modelled from the
spec: the Image Source operation get_band_means, since the optical_features
module those calls go through is not under src/. -/
abbrev SFiltered := Nat → List (String × Int)

/-- One output record (an AcquisitionRow of the spec): the dictionary built at
lines 35-38 / 107-121, keyed first by the field identifier column, then by the
acquisition-date column, then by the feature columns. -/
structure Row where
  fieldColName : String
  fieldName : String
  dateColName : String
  date : Nat
  features : List (String × Int)
deriving DecidableEq

/-- The attribute names the module radar_features defines (the four top-level
functions of src/Notebooks/utils/radar_features.py). -/
def radarFeaturesAttrs : List String :=
  ["get_polarization", "calculate_radar_vegetation_index",
   "calculate_simple_index", "calculate_normalized_difference_index"]

/-- Number of required positional parameters (those without defaults) of each
function of radar_features: get_polarization(image, date, polygon, type=[])
has 3, calculate_radar_vegetation_index(image, date, polygon) has 3,
calculate_simple_index(image, date, polygon, type=[]) has 3,
calculate_normalized_difference_index(image, date, polygon) has 3. -/
def radarRequiredParams (f : String) : Option Nat :=
  if f = "get_polarization" then some 3
  else if f = "calculate_radar_vegetation_index" then some 3
  else if f = "calculate_simple_index" then some 3
  else if f = "calculate_normalized_difference_index" then some 3
  else none

/-- The radar_features call sites of process_chunk (lines 26-32) with the
number of positional arguments each passes. -/
def radarCallArgs : List (String × Nat) :=
  [("get_all_polarizations", 3), ("calculate_simple_index", 2),
   ("calculate_normalized_difference_index", 1),
   ("calculate_radar_vegetation_index", 1)]

/-- process_chunk (lines 7-126): one loop iteration per date of the chunk.
The RADAR branch (lines 25-38) first evaluates
radar_features.get_all_polarizations(s_filtered, date, polygon); the module
radar_features defines no attribute of that name (see radarFeaturesAttrs), so
the lookup raises AttributeError before any feature is computed.  The OPTICAL
branch (lines 40-121) is modelled from the spec: the optical_features module it
calls is not under src/, and per the spec it is the pure Index Evaluator fed by
the Image Source band means, so the row features are the band means the
filtered collection yields for the date.  Any other sentinel value assigns no
branch, so the append at line 124 reads the never-assigned local
df_acquisition and raises UnboundLocalError. -/
def process_chunk (s_filtered : SFiltered) (chunk : List Nat) (polygon : Polygon)
    (field_col_name field_name : String) (sentinel : Nat) : Except Err (List Row) :=
  match chunk with
  | [] => Except.ok []
  | date :: rest =>
    if sentinel = 1 then
      Except.error (Err.attributeError "get_all_polarizations")
    else if sentinel = 2 then
      match process_chunk s_filtered rest polygon field_col_name field_name sentinel with
      | Except.error e => Except.error e
      | Except.ok acqs =>
          Except.ok (⟨field_col_name, field_name, "s2_acquisition_date", date,
                      s_filtered date⟩ :: acqs)
    else
      Except.error (Err.unboundLocal "df_acquisition")

/-- Line 151: num_chunks = ThreadPoolExecutor._max_workers -
already_occupied_threads, where the first term is the process-wide total worker
budget T (the environment-derived default pool size).  Python ints are
unbounded and the difference can be nonpositive, hence the Int result. -/
def innerWorkerCount (T already_occupied_threads : Nat) : Int :=
  (T : Int) - (already_occupied_threads : Int)

/-- Python floor division (line 152): raises ZeroDivisionError on a zero
divisor, otherwise rounds toward negative infinity. -/
def pyFloorDiv (a b : Int) : Except Err Int :=
  if b = 0 then Except.error Err.zeroDivision else Except.ok (Int.fdiv a b)

/-- Python range(0, stop, step) for a natural stop (line 153): a zero step
raises ValueError; a negative step yields nothing since stop is not below the
start 0; a positive step yields 0, step, 2*step, ... below stop. -/
def pyRangeZero (stop : Nat) (step : Int) : Except Err (List Nat) :=
  if step = 0 then Except.error Err.rangeZeroStep
  else if step < 0 then Except.ok []
  else Except.ok ((List.range ((stop + step.toNat - 1) / step.toNat)).map
    (fun j => j * step.toNat))

/-- Lines 152-153: chunk_size = len(date_range) // num_chunks and
date_chunks = [date_range[i:i+chunk_size] for i in range(0, len(date_range),
chunk_size)]. -/
def makeDateChunks (date_range : List Nat) (num_chunks : Int) :
    Except Err (List (List Nat)) :=
  match pyFloorDiv (date_range.length : Int) num_chunks with
  | Except.error e => Except.error e
  | Except.ok chunk_size =>
    match pyRangeZero date_range.length chunk_size with
    | Except.error e => Except.error e
    | Except.ok starts =>
        Except.ok (starts.map (fun i => (date_range.drop i).take chunk_size.toNat))

/-- Building a ThreadPoolExecutor with an explicit size (lines 158 and 244):
Python raises ValueError unless the size is positive. -/
def newThreadPool (max_workers : Int) : Except Err Unit :=
  if max_workers ≤ 0 then Except.error Err.invalidPoolSize else Except.ok ()

/-- Waiting on a list of submitted futures and extending one list with their
results (lines 163-165 and 253-255): the first failed task re-raises its
exception from future.result(); otherwise the row lists are concatenated.
The real gather follows completion order; the model uses submission order,
which the final sort and the multiset-level properties proved below do not
depend on. -/
def gather : List (Except Err (List Row)) → Except Err (List Row)
  | [] => Except.ok []
  | t :: ts =>
    match t with
    | Except.error e => Except.error e
    | Except.ok rows =>
      match gather ts with
      | Except.error e => Except.error e
      | Except.ok acc => Except.ok (rows ++ acc)

/-- parallelize_features_read (lines 129-167): split the date range into chunks
of size len // num_chunks starting at 0, chunk_size, 2*chunk_size, ...; open an
inner pool of num_chunks workers; run process_chunk per chunk and gather. -/
def parallelize_features_read (s_filtered : SFiltered) (date_range : List Nat)
    (polygon : Polygon) (field_col_name field_name : String) (sentinel : Nat)
    (already_occupied_threads T : Nat) : Except Err (List Row) :=
  match makeDateChunks date_range (innerWorkerCount T already_occupied_threads) with
  | Except.error e => Except.error e
  | Except.ok date_chunks =>
    match newThreadPool (innerWorkerCount T already_occupied_threads) with
    | Except.error e => Except.error e
    | Except.ok _ =>
        gather (date_chunks.map (fun chunk =>
          process_chunk s_filtered chunk polygon field_col_name field_name sentinel))

/-- process_field (lines 170-208): build the filtered collection for sentinel 1
or 2 (any other sentinel value assigns neither branch, so line 204 reads the
never-assigned local s_filtered and raises UnboundLocalError); take the
distinct dates of the collection sorted ascending (line 205); hand everything
to parallelize_features_read with the same already-occupied thread count. -/
def process_field (field_col_name : String) (field : FieldRow)
    (start_date end_date : Nat) (sentinel : Nat)
    (already_occupied_threads T : Nat) (img : ImageSource) : Except Err (List Row) :=
  if sentinel = 1 ∨ sentinel = 2 then
    let s_filtered : SFiltered := img.bandMeans sentinel field.polygon
    let date_range : List Nat :=
      List.insertionSort (fun a b => a ≤ b)
        (List.dedup (img.rawDates sentinel field.polygon start_date end_date))
    parallelize_features_read s_filtered date_range field.polygon
      field_col_name field.name sentinel already_occupied_threads T
  else
    Except.error (Err.unboundLocal "s_filtered")

/-- The branch of get_features taken when len(fields_df) == 2 (lines 247-248):
the whole DataFrame is submitted to process_field as if it were one field row.
There, field[0] (line 186) is a DataFrame column lookup by the integer label 0;
the fields table columns carry the string labels idCol and polyCol, so the
lookup raises KeyError 0 before anything else runs. -/
def process_field_df (_df : FieldsDf) (_start_date _end_date : Nat) (_sentinel : Nat)
    (_already_occupied_threads _T : Nat) (_img : ImageSource) : Except Err (List Row) :=
  Except.error (Err.keyError 0)

/-- The field-level task list get_features submits (lines 246-251): one task on
the whole DataFrame when its length is 2 (the comment at line 246 calls this
the one-field case, but len of a DataFrame counts rows), otherwise one
process_field task per row, each passed fields_threads as the already-occupied
thread count. -/
def field_tasks (df : FieldsDf) (start_date end_date : Nat) (sentinel : Nat)
    (fields_threads T : Nat) (img : ImageSource) : List (Except Err (List Row)) :=
  if df.rows.length = 2 then
    [process_field_df df start_date end_date sentinel fields_threads T img]
  else
    df.rows.map (fun field =>
      process_field df.idCol field start_date end_date sentinel fields_threads T img)

/-- Strict lexicographic order on character lists, comparing code points, as
Python compares strings.  Structural recursion so that concrete instances of
the embedded pipeline evaluate inside the kernel. -/
def strLtAux : List Char → List Char → Bool
  | [], [] => false
  | [], _ :: _ => true
  | _ :: _, [] => false
  | c :: cs, d :: ds =>
    if c.toNat < d.toNat then true
    else if d.toNat < c.toNat then false
    else strLtAux cs ds

/-- Strict lexicographic order on strings (Python string comparison). -/
def strLt (a b : String) : Bool := strLtAux a.data b.data

theorem char_eq_of_toNat_eq {c d : Char} (h : c.toNat = d.toNat) : c = d :=
  Char.ext (UInt32.ext h)

theorem strLtAux_trans : ∀ xs ys zs : List Char,
    strLtAux xs ys = true → strLtAux ys zs = true → strLtAux xs zs = true := by
  intro xs
  induction xs with
  | nil =>
    intro ys zs h1 h2
    cases ys with
    | nil => simp [strLtAux] at h1
    | cons y ys =>
      cases zs with
      | nil => simp [strLtAux] at h2
      | cons z zs => simp [strLtAux]
  | cons c cs ih =>
    intro ys zs h1 h2
    cases ys with
    | nil => simp [strLtAux] at h1
    | cons y ys =>
      cases zs with
      | nil => simp [strLtAux] at h2
      | cons z zs =>
        simp only [strLtAux] at h1 h2 ⊢
        by_cases hcy : c.toNat < y.toNat
        · by_cases hyz : y.toNat < z.toNat
          · simp [show c.toNat < z.toNat by omega]
          · by_cases hzy : z.toNat < y.toNat
            · simp [hyz, hzy] at h2
            · simp [show c.toNat < z.toNat by omega]
        · by_cases hyc : y.toNat < c.toNat
          · simp [hcy, hyc] at h1
          · simp [hcy, hyc] at h1
            by_cases hyz : y.toNat < z.toNat
            · simp [show c.toNat < z.toNat by omega]
            · by_cases hzy : z.toNat < y.toNat
              · simp [hyz, hzy] at h2
              · simp [hyz, hzy] at h2
                simp [show ¬c.toNat < z.toNat by omega,
                      show ¬z.toNat < c.toNat by omega]
                exact ih ys zs h1 h2

theorem strLtAux_total : ∀ xs ys : List Char,
    strLtAux xs ys = true ∨ xs = ys ∨ strLtAux ys xs = true := by
  intro xs
  induction xs with
  | nil =>
    intro ys
    cases ys with
    | nil => exact Or.inr (Or.inl rfl)
    | cons y ys => exact Or.inl (by simp [strLtAux])
  | cons c cs ih =>
    intro ys
    cases ys with
    | nil => exact Or.inr (Or.inr (by simp [strLtAux]))
    | cons y ys =>
      by_cases hcy : c.toNat < y.toNat
      · exact Or.inl (by simp [strLtAux, hcy])
      · by_cases hyc : y.toNat < c.toNat
        · exact Or.inr (Or.inr (by simp [strLtAux, hyc]))
        · have hce : c = y := char_eq_of_toNat_eq (by omega)
          rcases ih ys with h | h | h
          · exact Or.inl (by simp [strLtAux, hcy, hyc, h])
          · exact Or.inr (Or.inl (by rw [hce, h]))
          · exact Or.inr (Or.inr (by simp [strLtAux, hcy, hyc, hce, h]))

theorem strLt_trans {a b c : String} (h1 : strLt a b = true) (h2 : strLt b c = true) :
    strLt a c = true :=
  strLtAux_trans a.data b.data c.data h1 h2

theorem strLt_total (a b : String) : strLt a b = true ∨ a = b ∨ strLt b a = true := by
  rcases strLtAux_total a.data b.data with h | h | h
  · exact Or.inl h
  · refine Or.inr (Or.inl ?_)
    cases a with
    | mk da =>
      cases b with
      | mk db =>
        have hd : da = db := h
        rw [hd]
  · exact Or.inr (Or.inr h)

/-- Ordering of output rows used by the final sort (line 261):
df.sort_values([columns[0], columns[1]], ascending=[True, True]) with
columns[0] the field identifier column and columns[1] the acquisition-date
column — lexicographic on the identifier, then chronological on the date. -/
def rowLe (a b : Row) : Prop :=
  strLt a.fieldName b.fieldName = true ∨
    (a.fieldName = b.fieldName ∧ a.date ≤ b.date)

instance : DecidableRel rowLe := fun a b => by
  unfold rowLe
  infer_instance

instance : IsTotal Row rowLe := by
  refine ⟨fun a b => ?_⟩
  rcases strLt_total a.fieldName b.fieldName with h | h | h
  · exact Or.inl (Or.inl h)
  · rcases Nat.le_total a.date b.date with hd | hd
    · exact Or.inl (Or.inr ⟨h, hd⟩)
    · exact Or.inr (Or.inr ⟨h.symm, hd⟩)
  · exact Or.inr (Or.inl h)

instance : IsTrans Row rowLe := by
  refine ⟨fun a b c hab hbc => ?_⟩
  rcases hab with h1 | ⟨e1, d1⟩ <;> rcases hbc with h2 | ⟨e2, d2⟩
  · exact Or.inl (strLt_trans h1 h2)
  · exact Or.inl (e2 ▸ h1)
  · exact Or.inl (e1 ▸ h2)
  · exact Or.inr ⟨e1.trans e2, le_trans d1 d2⟩

/-- Lines 257-261: build a DataFrame from the gathered row list and sort it by
(columns[0], columns[1]) ascending.  A DataFrame built from an empty list has
no columns, so df.columns[0] raises IndexError; otherwise the first two columns
are the field identifier column and the acquisition-date column, and
sort_values is a comparison sort by rowLe. -/
def buildAndSort (df_list : List Row) : Except Err (List Row) :=
  if df_list.isEmpty then Except.error Err.indexError
  else Except.ok (List.insertionSort rowLe df_list)

/-- get_features (lines 211-261): open the field-level pool of fields_threads
workers (ValueError if nonpositive), submit the field tasks, gather their row
lists, build the DataFrame and return it sorted. -/
def get_features (df : FieldsDf) (start_date end_date : Nat) (sentinel : Nat)
    (fields_threads T : Nat) (img : ImageSource) : Except Err (List Row) :=
  match newThreadPool (fields_threads : Int) with
  | Except.error e => Except.error e
  | Except.ok _ =>
    match gather (field_tasks df start_date end_date sentinel fields_threads T img) with
    | Except.error e => Except.error e
    | Except.ok df_list => buildAndSort df_list

/-- The inner worker budget the claims attribute to a field-task.  Modelled
from the spec: remaining_budget is T - field_level_worker_count, or T - 1 when
the input contains exactly one field (spec section 4.1 step 3).  Stated from
the spec wording to be compared with innerWorkerCount, the budget the source
computes. -/
def specInnerBudget (numFields T field_level_worker_count : Nat) : Int :=
  if numFields = 1 then (T : Int) - 1
  else (T : Int) - (field_level_worker_count : Int)

/-- Reference chunking recursion: split a list into successive blocks, each of
size c (the final block keeps whatever is left).  For a positive c this is what
the slice comprehension of line 153 produces; the bridge is proved below. -/
def chunkEvery (c : Nat) : List Nat → List (List Nat)
  | [] => []
  | x :: xs => (x :: xs.take (c - 1)) :: chunkEvery c (xs.drop (c - 1))
termination_by l => l.length
decreasing_by
  simp only [List.length_drop, List.length_cons]
  omega

/-- A sample field row used to instantiate the theorems below. -/
def fOne : FieldRow := ⟨"A", [(0, 0)]⟩

/-- A one-field fields table. -/
def dfOne : FieldsDf := ⟨"crop_field_name", "polygon_coordinates", [fOne]⟩

/-- A two-field fields table. -/
def dfTwo : FieldsDf :=
  ⟨"crop_field_name", "polygon_coordinates", [⟨"A", [(0, 0)]⟩, ⟨"B", [(1, 1)]⟩]⟩

/-- A sample Image Source reporting two acquisition dates for every field. -/
def egImg : ImageSource :=
  ⟨fun _ _ _ _ => [5, 3], fun _ _ d => [("B1", (d : Int))]⟩

/-- An Image Source reporting no acquisition dates at all. -/
def imgEmpty : ImageSource := ⟨fun _ _ _ _ => [], fun _ _ _ => []⟩

/-- An Image Source reporting three acquisition dates for every field. -/
def imgThree : ImageSource :=
  ⟨fun _ _ _ _ => [1, 2, 3], fun _ _ d => [("VV", (d : Int)), ("VH", (d : Int))]⟩

/-- A sample filtered collection. -/
def sfEg : SFiltered := fun _ => []

theorem newThreadPool_pos (n : Nat) (h : 1 ≤ n) :
    newThreadPool (n : Int) = Except.ok () := by
  unfold newThreadPool
  rw [if_neg (by omega)]

theorem field_tasks_singleton (df : FieldsDf) (fld : FieldRow)
    (sd ed sentinel ft T : Nat) (img : ImageSource) (h : df.rows = [fld]) :
    field_tasks df sd ed sentinel ft T img
      = [process_field df.idCol fld sd ed sentinel ft T img] := by
  unfold field_tasks
  rw [h]
  rw [if_neg (by simp)]
  rfl

theorem gather_single_error (e : Err) (t : Except Err (List Row))
    (h : t = Except.error e) : gather [t] = Except.error e := by
  rw [h]
  rfl

theorem buildAndSort_sorted (dl t : List Row) (h : buildAndSort dl = Except.ok t) :
    List.Chain' rowLe t := by
  unfold buildAndSort at h
  by_cases he : dl.isEmpty
  · rw [if_pos he] at h
    exact Except.noConfusion h
  · rw [if_neg he] at h
    have ht : t = List.insertionSort rowLe dl := (Except.ok.inj h).symm
    rw [ht]
    exact (List.sorted_insertionSort rowLe dl).chain'

/-- C1.  The claim says every field of a non-empty input is processed exactly
once, with one output row per reported (field, date) pair.  The code guards its
single-field special case with len(fields_df) == 2 (line 247), which for a
DataFrame counts rows: a two-field table is submitted whole to process_field as
one task, where field[0] is an integer-label column lookup that raises
KeyError — the two fields are never iterated, so get_features errors instead of
producing their rows. -/
theorem two_field_table_not_iterated (df : FieldsDf) (sd ed sentinel ft T : Nat)
    (img : ImageSource) (h1 : df.rows.length = 2) (h2 : 1 ≤ ft) :
    get_features df sd ed sentinel ft T img = Except.error (Err.keyError 0) := by
  unfold get_features
  rw [newThreadPool_pos ft h2]
  have htasks : field_tasks df sd ed sentinel ft T img
      = [Except.error (Err.keyError 0)] := by
    unfold field_tasks
    rw [if_pos h1]
    rfl
  rw [htasks]
  rfl

/-- Witness for two_field_table_not_iterated at a concrete two-field table. -/
theorem two_field_table_not_iterated_witness :
    get_features dfTwo 0 9 2 1 4 egImg = Except.error (Err.keyError 0) :=
  two_field_table_not_iterated dfTwo 0 9 2 1 4 egImg (by decide) (by decide)

/-- C2.  Every table get_features returns is sorted ascending by
(field identifier, acquisition date): for all adjacent rows the rowLe relation
holds — lexicographic on the identifier, chronological on the date (the final
sort_values at line 261). -/
theorem result_sorted_by_field_and_date (df : FieldsDf) (sd ed sentinel ft T : Nat)
    (img : ImageSource) (t : List Row)
    (h : get_features df sd ed sentinel ft T img = Except.ok t) :
    List.Chain' rowLe t := by
  unfold get_features at h
  cases hp : newThreadPool (ft : Int) with
  | error e =>
    rw [hp] at h
    exact Except.noConfusion h
  | ok u =>
    rw [hp] at h
    cases hg : gather (field_tasks df sd ed sentinel ft T img) with
    | error e =>
      rw [hg] at h
      exact Except.noConfusion h
    | ok dl =>
      rw [hg] at h
      exact buildAndSort_sorted dl t h

/-- Witness for result_sorted_by_field_and_date on a successful concrete run. -/
theorem result_sorted_by_field_and_date_witness :
    List.Chain' rowLe
      [⟨"crop_field_name", "A", "s2_acquisition_date", 3, [("B1", 3)]⟩,
       ⟨"crop_field_name", "A", "s2_acquisition_date", 5, [("B1", 5)]⟩] :=
  result_sorted_by_field_and_date dfOne 0 9 2 1 2 egImg _ (by decide)

/-- C3 counterexample.  The claim says a single-field input computes the inner
budget as T - 1; with one field, T = 4 and field_level_worker_count = 4 the
claimed budget would be 3, but the code computes T - fields_threads = 0 and
dies dividing by it (ZeroDivisionError at line 152). -/
theorem single_field_budget_counterexample :
    specInnerBudget 1 4 4 = 3 ∧ innerWorkerCount 4 4 = 0 ∧
    get_features dfOne 0 9 2 4 4 egImg = Except.error Err.zeroDivision :=
  ⟨by decide, by decide, by decide⟩

/-- C3 amended.  Every field-task receives fields_threads itself as the
already-occupied count — also in the single-field case — so the inner worker
budget is always T - field_level_worker_count, never T - 1 (lines 151, 248 and
251). -/
theorem field_tasks_pass_fields_threads (df : FieldsDf) (fld : FieldRow)
    (sd ed sentinel ft T : Nat) (img : ImageSource) (h1 : df.rows = [fld]) :
    field_tasks df sd ed sentinel ft T img
      = [process_field df.idCol fld sd ed sentinel ft T img] ∧
    innerWorkerCount T ft = (T : Int) - (ft : Int) := by
  exact ⟨field_tasks_singleton df fld sd ed sentinel ft T img h1, rfl⟩

/-- Witness for field_tasks_pass_fields_threads at a concrete input. -/
theorem field_tasks_pass_fields_threads_witness :
    field_tasks dfOne 0 9 2 4 7 egImg
      = [process_field dfOne.idCol fOne 0 9 2 4 7 egImg] ∧
    innerWorkerCount 7 4 = ((7 : Nat) : Int) - ((4 : Nat) : Int) :=
  field_tasks_pass_fields_threads dfOne fOne 0 9 2 4 7 egImg rfl

theorem makeDateChunks_zero (dr : List Nat) :
    makeDateChunks dr 0 = Except.error Err.zeroDivision := by
  unfold makeDateChunks pyFloorDiv
  rw [if_pos rfl]

theorem parallelize_nonpos_budget_fails (sf : SFiltered) (dr : List Nat)
    (pg : Polygon) (cn fn : String) (sentinel occ T : Nat) (h : T ≤ occ) :
    ∃ e, parallelize_features_read sf dr pg cn fn sentinel occ T
      = Except.error e := by
  have hnc : innerWorkerCount T occ ≤ 0 := by
    unfold innerWorkerCount
    omega
  unfold parallelize_features_read
  rcases lt_or_eq_of_le hnc with hlt | heq
  · have hne : innerWorkerCount T occ ≠ 0 := ne_of_lt hlt
    have hfd : Int.fdiv (dr.length : Int) (innerWorkerCount T occ) ≤ 0 :=
      Int.fdiv_nonpos (Int.natCast_nonneg _) (le_of_lt hlt)
    rcases lt_or_eq_of_le hfd with hfdlt | hfdeq
    · refine ⟨Err.invalidPoolSize, ?_⟩
      have hmk : makeDateChunks dr (innerWorkerCount T occ) = Except.ok [] := by
        unfold makeDateChunks pyFloorDiv pyRangeZero
        rw [if_neg hne]
        simp only [if_neg (ne_of_lt hfdlt), if_pos hfdlt]
        rfl
      rw [hmk]
      have hpool : newThreadPool (innerWorkerCount T occ)
          = Except.error Err.invalidPoolSize := by
        unfold newThreadPool
        rw [if_pos hnc]
      rw [hpool]
    · refine ⟨Err.rangeZeroStep, ?_⟩
      have hmk : makeDateChunks dr (innerWorkerCount T occ)
          = Except.error Err.rangeZeroStep := by
        unfold makeDateChunks pyFloorDiv pyRangeZero
        rw [if_neg hne]
        simp only [if_pos hfdeq]
      rw [hmk]
  · refine ⟨Err.zeroDivision, ?_⟩
    rw [heq, makeDateChunks_zero dr]

theorem process_field_budget_fails (cn : String) (fld : FieldRow)
    (sd ed sentinel occ T : Nat) (img : ImageSource) (h : T ≤ occ) :
    ∃ e, process_field cn fld sd ed sentinel occ T img = Except.error e := by
  unfold process_field
  by_cases hs : sentinel = 1 ∨ sentinel = 2
  · rw [if_pos hs]
    exact parallelize_nonpos_budget_fails _ _ _ _ _ _ _ _ h
  · rw [if_neg hs]
    exact ⟨_, rfl⟩

/-- C5.  When field_level_worker_count is at least the total budget T, the
inner worker count T - field_level_worker_count is nonpositive and the
field-task dies in the chunking arithmetic (ZeroDivisionError when it is zero,
otherwise a zero range step or an invalid pool size), so get_features fails:
the InvalidBudget error condition of the spec. -/
theorem invalid_budget_fails (df : FieldsDf) (fld : FieldRow)
    (sd ed sentinel ft T : Nat) (img : ImageSource) (h1 : df.rows = [fld])
    (h2 : 1 ≤ ft) (h3 : T ≤ ft) :
    (get_features df sd ed sentinel ft T img).isOk = false := by
  obtain ⟨e, he⟩ := process_field_budget_fails df.idCol fld sd ed sentinel ft T img h3
  unfold get_features
  rw [newThreadPool_pos ft h2]
  rw [field_tasks_singleton df fld sd ed sentinel ft T img h1]
  rw [gather_single_error e _ he]
  rfl

/-- Witness for invalid_budget_fails: T = 4 and fields_threads = 4 on a
one-field table. -/
theorem invalid_budget_fails_witness :
    (get_features dfOne 0 9 2 4 4 egImg).isOk = false :=
  invalid_budget_fails dfOne fOne 0 9 2 4 4 egImg rfl (by decide) (by decide)

theorem parallelize_empty_dates (sf : SFiltered) (pg : Polygon) (cn fn : String)
    (sentinel occ T : Nat) (h : occ < T) :
    parallelize_features_read sf [] pg cn fn sentinel occ T
      = Except.error Err.rangeZeroStep := by
  unfold parallelize_features_read makeDateChunks pyFloorDiv pyRangeZero
  have hne : innerWorkerCount T occ ≠ 0 := by
    unfold innerWorkerCount
    omega
  rw [if_neg hne]
  simp

/-- C6.  The claim says a field with zero reported acquisition dates
contributes zero rows without error; instead chunk_size = 0 // num_chunks = 0
makes range(0, 0, 0) raise ValueError (range arg 3 must not be zero), so
get_features fails on such a field. -/
theorem zero_dates_field_errors (df : FieldsDf) (fld : FieldRow)
    (sd ed ft T : Nat) (img : ImageSource) (h1 : df.rows = [fld]) (h2 : 1 ≤ ft)
    (h3 : ft < T) (h4 : img.rawDates 2 fld.polygon sd ed = []) :
    get_features df sd ed 2 ft T img = Except.error Err.rangeZeroStep := by
  have hpf : process_field df.idCol fld sd ed 2 ft T img
      = Except.error Err.rangeZeroStep := by
    unfold process_field
    rw [if_pos (Or.inr rfl), h4]
    simp only [List.dedup_nil]
    exact parallelize_empty_dates _ _ _ _ 2 ft T h3
  unfold get_features
  rw [newThreadPool_pos ft h2]
  rw [field_tasks_singleton df fld sd ed 2 ft T img h1]
  rw [gather_single_error _ _ hpf]

/-- Witness for zero_dates_field_errors with an Image Source reporting no
dates. -/
theorem zero_dates_field_errors_witness :
    get_features dfOne 0 9 2 1 2 imgEmpty = Except.error Err.rangeZeroStep :=
  zero_dates_field_errors dfOne fOne 0 9 1 2 imgEmpty rfl (by decide) (by decide) rfl

theorem chunkEvery_nil (c : Nat) : chunkEvery c [] = [] := by
  unfold chunkEvery
  rfl

theorem chunkEvery_cons (c : Nat) (x : Nat) (xs : List Nat) :
    chunkEvery c (x :: xs)
      = (x :: xs.take (c - 1)) :: chunkEvery c (xs.drop (c - 1)) := by
  rw [chunkEvery]

theorem chunkEvery_flatten_aux (c : Nat) :
    ∀ (n : Nat) (l : List Nat), l.length ≤ n → (chunkEvery c l).flatten = l := by
  intro n
  induction n with
  | zero =>
    intro l hl
    rw [List.eq_nil_of_length_eq_zero (Nat.le_zero.mp hl), chunkEvery_nil]
    rfl
  | succ n ih =>
    intro l hl
    cases l with
    | nil => rw [chunkEvery_nil]; rfl
    | cons x xs =>
      rw [chunkEvery_cons]
      simp only [List.flatten_cons]
      rw [ih (xs.drop (c - 1)) (by
        simp only [List.length_drop]
        simp only [List.length_cons] at hl
        omega)]
      simp [List.take_append_drop]

theorem chunkEvery_flatten (c : Nat) (l : List Nat) : (chunkEvery c l).flatten = l :=
  chunkEvery_flatten_aux c l.length l le_rfl

theorem chunkEvery_mem_aux (c : Nat) (hc : 0 < c) :
    ∀ (n : Nat) (l : List Nat), l.length ≤ n →
      ∀ ch ∈ chunkEvery c l, ch ≠ [] ∧ ch.length ≤ c := by
  intro n
  induction n with
  | zero =>
    intro l hl ch hch
    rw [List.eq_nil_of_length_eq_zero (Nat.le_zero.mp hl), chunkEvery_nil] at hch
    simp at hch
  | succ n ih =>
    intro l hl ch hch
    cases l with
    | nil =>
      rw [chunkEvery_nil] at hch
      simp at hch
    | cons x xs =>
      rw [chunkEvery_cons] at hch
      rcases List.mem_cons.mp hch with h | h
      · rw [h]
        refine ⟨List.cons_ne_nil _ _, ?_⟩
        simp only [List.length_cons, List.length_take]
        omega
      · exact ih (xs.drop (c - 1)) (by
          simp only [List.length_drop]
          simp only [List.length_cons] at hl
          omega) ch h

theorem chunkEvery_dropLast_aux (c : Nat) (hc : 0 < c) :
    ∀ (n : Nat) (l : List Nat), l.length ≤ n →
      ∀ ch ∈ (chunkEvery c l).dropLast, ch.length = c := by
  intro n
  induction n with
  | zero =>
    intro l hl ch hch
    rw [List.eq_nil_of_length_eq_zero (Nat.le_zero.mp hl), chunkEvery_nil] at hch
    simp at hch
  | succ n ih =>
    intro l hl ch hch
    cases l with
    | nil =>
      rw [chunkEvery_nil] at hch
      simp at hch
    | cons x xs =>
      rw [chunkEvery_cons] at hch
      cases hr : chunkEvery c (xs.drop (c - 1)) with
      | nil =>
        rw [hr] at hch
        simp at hch
      | cons r rs =>
        rw [hr, List.dropLast_cons₂] at hch
        rcases List.mem_cons.mp hch with h | h
        · have hd : xs.drop (c - 1) ≠ [] := by
            intro hnil
            rw [hnil, chunkEvery_nil] at hr
            exact List.noConfusion hr
          have hlen : c - 1 < xs.length := by
            by_contra hcon
            exact hd (List.drop_eq_nil_of_le (by omega))
          rw [h]
          simp only [List.length_cons, List.length_take]
          omega
        · refine ih (xs.drop (c - 1)) (by
            simp only [List.length_drop]
            simp only [List.length_cons] at hl
            omega) ch ?_
          rw [hr]
          exact h

theorem len_le_sum : ∀ ns : List Nat, (∀ x ∈ ns, 1 ≤ x) → ns.length ≤ ns.sum := by
  intro ns
  induction ns with
  | nil => simp
  | cons a as ih =>
    intro h
    have ha := h a (List.mem_cons_self a as)
    have hrest := ih (fun x hx => h x (List.mem_cons_of_mem a hx))
    simp only [List.length_cons, List.sum_cons]
    omega

theorem ceil_div_succ (c N : Nat) (hc : 0 < c) (hN : 1 ≤ N) :
    (N + c - 1) / c = (N - c + c - 1) / c + 1 := by
  rcases le_or_lt N c with hle | hlt
  · have h1 : N + c - 1 = (N - 1) + c := by omega
    rw [h1, Nat.add_div_right _ hc]
    have h2 : (N - 1) / c = 0 := Nat.div_eq_of_lt (by omega)
    have h3 : N - c = 0 := by omega
    have h4 : (0 + c - 1) / c = 0 := Nat.div_eq_of_lt (by omega)
    rw [h2, h3, h4]
  · have h1 : N + c - 1 = (N - 1) + c := by omega
    have h2 : N - c + c - 1 = (N - c - 1) + c := by omega
    rw [h1, h2, Nat.add_div_right _ hc, Nat.add_div_right _ hc]
    have h3 : N - 1 = (N - c - 1) + c := by omega
    rw [h3, Nat.add_div_right _ hc]

theorem slices_eq_aux (c : Nat) (hc : 0 < c) :
    ∀ (n : Nat) (l : List Nat), l.length ≤ n →
      (List.range ((l.length + c - 1) / c)).map (fun j => (l.drop (j * c)).take c)
        = chunkEvery c l := by
  intro n
  induction n with
  | zero =>
    intro l hl
    rw [List.eq_nil_of_length_eq_zero (Nat.le_zero.mp hl)]
    rw [show (([] : List Nat).length + c - 1) / c = 0 from
      Nat.div_eq_of_lt (by simp; omega)]
    rw [chunkEvery_nil]
    rfl
  | succ n ih =>
    intro l hl
    cases l with
    | nil =>
      rw [show (([] : List Nat).length + c - 1) / c = 0 from
        Nat.div_eq_of_lt (by simp; omega)]
      rw [chunkEvery_nil]
      rfl
    | cons x xs =>
      have hm : ((x :: xs).length + c - 1) / c
          = ((xs.drop (c - 1)).length + c - 1) / c + 1 := by
        have hcs := ceil_div_succ c (xs.length + 1) hc (by omega)
        simp only [List.length_cons, List.length_drop]
        simp only at hcs
        have harg : xs.length + 1 - c = xs.length - (c - 1) := by omega
        rw [← harg]
        exact hcs
      rw [hm, List.range_succ_eq_map, List.map_cons, List.map_map]
      rw [chunkEvery_cons]
      refine congrArg₂ List.cons ?_ ?_
      · simp only [Nat.zero_mul, List.drop_zero]
        obtain ⟨c', rfl⟩ : ∃ c', c = c' + 1 := ⟨c - 1, by omega⟩
        simp [List.take_succ_cons]
      · have htail : ∀ j,
            ((fun j => ((x :: xs).drop (j * c)).take c) ∘ Nat.succ) j
              = ((xs.drop (c - 1)).drop (j * c)).take c := by
          intro j
          simp only [Function.comp]
          rw [Nat.succ_mul]
          obtain ⟨c', rfl⟩ : ∃ c', c = c' + 1 := ⟨c - 1, by omega⟩
          rw [show j * (c' + 1) + (c' + 1) = (j * (c' + 1) + c') + 1 from by omega]
          rw [List.drop_succ_cons, List.drop_drop]
          rw [show c' + 1 - 1 + j * (c' + 1) = j * (c' + 1) + c' from by omega]
        rw [List.map_congr_left (fun j _ => htail j)]
        exact ih (xs.drop (c - 1)) (by
          simp only [List.length_drop]
          simp only [List.length_cons] at hl
          omega)

theorem makeDateChunks_pos (l : List Nat) (k : Nat) (h1 : 1 ≤ k)
    (h2 : k ≤ l.length) :
    makeDateChunks l (k : Int) = Except.ok (chunkEvery (l.length / k) l) := by
  have hk0 : (k : Int) ≠ 0 := by omega
  have hc : 0 < l.length / k := (Nat.one_le_div_iff (by omega)).mpr h2
  have hfd : Int.fdiv (l.length : Int) (k : Int) = ((l.length / k : Nat) : Int) := by
    rw [Int.fdiv_eq_ediv _ (by omega)]
    exact (Int.ofNat_ediv l.length k).symm
  unfold makeDateChunks pyFloorDiv pyRangeZero
  rw [if_neg hk0]
  simp only [hfd, if_neg (show ¬((l.length / k : Nat) : Int) = 0 by omega),
    if_neg (show ¬((l.length / k : Nat) : Int) < 0 by omega), Int.toNat_natCast]
  rw [List.map_map]
  exact congrArg Except.ok (slices_eq_aux (l.length / k) hc l.length l le_rfl)

/-- C4 counterexample.  The claim says exactly k chunks whose sizes differ by
at most 1: splitting 5 dates into k = 2 chunks yields 3 chunks, and splitting
7 dates into 2 chunks yields sizes 3, 3 and 1 — adjacent sizes differing
by 2. -/
theorem chunk_count_counterexample :
    makeDateChunks [0, 1, 2, 3, 4] 2 = Except.ok [[0, 1], [2, 3], [4]] ∧
    ([[0, 1], [2, 3], [4]] : List (List Nat)).length ≠ 2 ∧
    makeDateChunks [0, 1, 2, 3, 4, 5, 6] 2
      = Except.ok [[0, 1, 2], [3, 4, 5], [6]] ∧
    ¬ (([0, 1, 2] : List Nat).length ≤ ([6] : List Nat).length + 1) := by
  refine ⟨by decide, by decide, by decide, by decide⟩

/-- C4 amended.  For 1 ≤ k ≤ n the partition succeeds and produces the
contiguous blocks of size c = n // k (the final block keeping the remainder):
their concatenation is exactly the input (sizes sum to n, no date in two
chunks), every chunk is non-empty with size at most c, every chunk but the
last has size exactly c (so sizes may differ by up to c - 1), and the number
of chunks lies between k and n — it equals k only when the ceiling of n / c
does. -/
theorem date_partition_properties (l : List Nat) (k : Nat) (h1 : 1 ≤ k)
    (h2 : k ≤ l.length) :
    makeDateChunks l (k : Int) = Except.ok (chunkEvery (l.length / k) l) ∧
    (chunkEvery (l.length / k) l).flatten = l ∧
    (∀ ch ∈ chunkEvery (l.length / k) l, ch ≠ [] ∧ ch.length ≤ l.length / k) ∧
    (∀ ch ∈ (chunkEvery (l.length / k) l).dropLast, ch.length = l.length / k) ∧
    k ≤ (chunkEvery (l.length / k) l).length ∧
    (chunkEvery (l.length / k) l).length ≤ l.length := by
  have hc : 0 < l.length / k := (Nat.one_le_div_iff (by omega)).mpr h2
  have hjoin := chunkEvery_flatten (l.length / k) l
  have hmem := chunkEvery_mem_aux (l.length / k) hc l.length l le_rfl
  have hlast := chunkEvery_dropLast_aux (l.length / k) hc l.length l le_rfl
  have hsum : ((chunkEvery (l.length / k) l).map List.length).sum = l.length := by
    rw [← List.length_flatten, hjoin]
  refine ⟨makeDateChunks_pos l k h1 h2, hjoin, hmem, hlast, ?_, ?_⟩
  · have hub : ((chunkEvery (l.length / k) l).map List.length).sum
        ≤ ((chunkEvery (l.length / k) l).map List.length).length • (l.length / k) := by
      refine List.sum_le_card_nsmul _ _ ?_
      intro x hx
      obtain ⟨ch, hch, rfl⟩ := List.mem_map.mp hx
      exact (hmem ch hch).2
    rw [hsum, List.length_map, smul_eq_mul] at hub
    have hkc : k * (l.length / k) ≤ l.length := by
      have := Nat.div_mul_le_self l.length k
      calc k * (l.length / k) = l.length / k * k := Nat.mul_comm _ _
        _ ≤ l.length := this
    have hmul : k * (l.length / k)
        ≤ (chunkEvery (l.length / k) l).length * (l.length / k) :=
      le_trans hkc hub
    exact Nat.le_of_mul_le_mul_right hmul hc
  · have hones : ∀ x ∈ (chunkEvery (l.length / k) l).map List.length, 1 ≤ x := by
      intro x hx
      obtain ⟨ch, hch, rfl⟩ := List.mem_map.mp hx
      exact List.length_pos.mpr (hmem ch hch).1
    have := len_le_sum _ hones
    rw [hsum, List.length_map] at this
    exact this

/-- Witness for date_partition_properties at five dates and two chunks. -/
theorem date_partition_properties_witness :
    makeDateChunks [0, 1, 2, 3, 4] ((2 : Nat) : Int)
      = Except.ok (chunkEvery ([0, 1, 2, 3, 4].length / 2) [0, 1, 2, 3, 4]) ∧
    (chunkEvery ([0, 1, 2, 3, 4].length / 2) [0, 1, 2, 3, 4]).flatten
      = [0, 1, 2, 3, 4] :=
  ⟨(date_partition_properties [0, 1, 2, 3, 4] 2 (by decide) (by decide)).1,
   (date_partition_properties [0, 1, 2, 3, 4] 2 (by decide) (by decide)).2.1⟩

/-- C7.  The claimed scenario (two fields, three RADAR dates each,
field_level_worker_count 1, T = 2) should return six rows with the radar
columns; instead len(fields_df) == 2 routes the whole two-row table into
process_field, whose integer column lookup raises KeyError, so get_features
errors and returns no rows at all. -/
theorem radar_two_field_scenario_errors :
    get_features dfTwo 0 9 1 1 2 imgThree = Except.error (Err.keyError 0) := by
  decide

/-- C8.  An empty fields collection produces no tasks and an empty row list;
the DataFrame built from it has no columns, so the sort-key lookup
df.columns[0] at line 261 raises IndexError: get_features fails, realizing the
EmptyFieldSet error condition of the spec. -/
theorem empty_fields_error (idc pc : String) (sd ed sentinel ft T : Nat)
    (img : ImageSource) (h : 1 ≤ ft) :
    get_features ⟨idc, pc, []⟩ sd ed sentinel ft T img
      = Except.error Err.indexError := by
  unfold get_features
  rw [newThreadPool_pos ft h]
  have htasks : field_tasks ⟨idc, pc, []⟩ sd ed sentinel ft T img = [] := by
    unfold field_tasks
    rw [if_neg (by simp)]
    rfl
  rw [htasks]
  rfl

/-- Witness for empty_fields_error at a concrete input. -/
theorem empty_fields_error_witness :
    get_features ⟨"a", "b", []⟩ 0 9 2 1 4 egImg = Except.error Err.indexError :=
  empty_fields_error "a" "b" 0 9 2 1 4 egImg (by decide)

/-- C9.  The RADAR path of process_chunk calls
radar_features.get_all_polarizations, an attribute the radar_features module
does not define, and its other radar_features call sites pass fewer positional
arguments than the callees require (they need an image collection, a date and a
polygon); consequently the RADAR path raises AttributeError on the first date
of every non-empty chunk and produces no rows. -/
theorem radar_calls_mismatch_module :
    ("get_all_polarizations" ∉ radarFeaturesAttrs) ∧
    (∀ p ∈ radarCallArgs, p.1 = "get_all_polarizations" ∨
      ∃ req ∈ (radarRequiredParams p.1).toList, p.2 < req) ∧
    (∀ sf chunk pg cn fn, chunk ≠ [] →
      process_chunk sf chunk pg cn fn 1
        = Except.error (Err.attributeError "get_all_polarizations")) := by
  refine ⟨by decide, by decide, ?_⟩
  intro sf chunk pg cn fn hne
  cases chunk with
  | nil => exact absurd rfl hne
  | cons d rest => rfl

/-- Witness for radar_calls_mismatch_module at a concrete chunk. -/
theorem radar_calls_mismatch_module_witness :
    process_chunk sfEg [7] [] "c" "f" 1
      = Except.error (Err.attributeError "get_all_polarizations") :=
  radar_calls_mismatch_module.2.2 sfEg [7] [] "c" "f" (by decide)

/-- C10.  For every sentinel other than 1 and 2, process_field reaches the use
of the never-assigned local s_filtered and process_chunk (on a non-empty
chunk) the never-assigned local df_acquisition, so both fail with an
unbound-local error, and the unguarded branch is reachable from get_features. -/
theorem unknown_sentinel_unbound_locals (sentinel : Nat) (h1 : sentinel ≠ 1)
    (h2 : sentinel ≠ 2) :
    (∀ cn fld sd ed occ T img, process_field cn fld sd ed sentinel occ T img
        = Except.error (Err.unboundLocal "s_filtered")) ∧
    (∀ sf chunk pg cn fn, chunk ≠ [] →
      process_chunk sf chunk pg cn fn sentinel
        = Except.error (Err.unboundLocal "df_acquisition")) ∧
    (∀ (df : FieldsDf) fld sd ed ft T img, df.rows = [fld] → 1 ≤ ft →
      get_features df sd ed sentinel ft T img
        = Except.error (Err.unboundLocal "s_filtered")) := by
  have hpf : ∀ cn fld sd ed occ T img,
      process_field cn fld sd ed sentinel occ T img
        = Except.error (Err.unboundLocal "s_filtered") := by
    intro cn fld sd ed occ T img
    unfold process_field
    rw [if_neg (by simp [h1, h2])]
  refine ⟨hpf, ?_, ?_⟩
  · intro sf chunk pg cn fn hne
    cases chunk with
    | nil => exact absurd rfl hne
    | cons d rest =>
      unfold process_chunk
      rw [if_neg h1, if_neg h2]
  · intro df fld sd ed ft T img hrows hft
    unfold get_features
    rw [newThreadPool_pos ft hft]
    rw [field_tasks_singleton df fld sd ed sentinel ft T img hrows]
    rw [gather_single_error _ _ (hpf df.idCol fld sd ed ft T img)]

/-- Witness for unknown_sentinel_unbound_locals at sentinel 3. -/
theorem unknown_sentinel_unbound_locals_witness :
    process_field "c" fOne 0 9 3 1 4 egImg
      = Except.error (Err.unboundLocal "s_filtered") ∧
    process_chunk sfEg [7] [] "c" "f" 3
      = Except.error (Err.unboundLocal "df_acquisition") ∧
    get_features dfOne 0 9 3 1 4 egImg
      = Except.error (Err.unboundLocal "s_filtered") :=
  ⟨(unknown_sentinel_unbound_locals 3 (by decide) (by decide)).1 "c" fOne 0 9 1 4 egImg,
   (unknown_sentinel_unbound_locals 3 (by decide) (by decide)).2.1 sfEg [7] [] "c" "f"
     (by decide),
   (unknown_sentinel_unbound_locals 3 (by decide) (by decide)).2.2 dfOne fOne 0 9 1 4
     egImg rfl (by decide)⟩

end SentinelSat

